import Mathlib

/-!
Shallow embedding of the LA-Rest-Data pipeline (src/data_extractor.py and
src/data_cleaner.py) and verification of its specified properties.

Numbers that Python holds as floats are modelled as rationals; missing values
(Python `None`, pandas `NaN`) are modelled as `Option`; tables are lists of
records in input order.
-/

namespace LARest

/-! ### Python primitives -/

/-- Python `str.lower()` (ASCII behaviour suffices for the data handled). -/
def pyLower (s : String) : String :=
  ⟨s.data.map Char.toLower⟩

/-- Core of `str.strip()`: drop whitespace at both ends of a char list. -/
def pyStripList (l : List Char) : List Char :=
  ((l.dropWhile Char.isWhitespace).reverse.dropWhile Char.isWhitespace).reverse

/-- Python `str.strip()` with no argument. -/
def pyStrip (s : String) : String :=
  ⟨pyStripList s.data⟩

/-- Core of `str.title()`: uppercase an alphabetic char that follows a
non-alphabetic position, lowercase the rest; the Bool carries whether the
previous char was alphabetic. -/
def pyTitleGo : Bool → List Char → List Char
  | _, [] => []
  | prevAlpha, c :: cs =>
      (if c.isAlpha then (if prevAlpha then c.toLower else c.toUpper) else c)
        :: pyTitleGo c.isAlpha cs

/-- Python `str.title()` (ASCII behaviour). -/
def pyTitle (s : String) : String :=
  ⟨pyTitleGo false s.data⟩

/-- Python `str.zfill(width)`: left-pad with zeros up to `width`, keeping a
leading sign character in front of the padding. -/
def pyZfill (width : Nat) (s : String) : String :=
  if width ≤ s.data.length then s
  else
    match s.data with
    | [] => ⟨List.replicate width '0'⟩
    | c :: rest =>
        if c = '+' ∨ c = '-' then
          ⟨c :: (List.replicate (width - s.data.length) '0' ++ rest)⟩
        else
          ⟨List.replicate (width - s.data.length) '0' ++ (c :: rest)⟩

/-- Python 3 `round` to an integer: round half to even (banker's rounding). -/
def roundHalfEven (q : ℚ) : ℤ :=
  if q - ⌊q⌋ < 1/2 then ⌊q⌋
  else if 1/2 < q - ⌊q⌋ then ⌊q⌋ + 1
  else if ⌊q⌋ % 2 = 0 then ⌊q⌋ else ⌊q⌋ + 1

/-- Python `round(q, n)` for a non-negative number of digits. -/
def pyRound (n : ℕ) (q : ℚ) : ℚ :=
  (roundHalfEven (q * 10 ^ n) : ℚ) / 10 ^ n

/-- Python `int()` on a float: truncation toward zero. -/
def pyInt (q : ℚ) : ℤ :=
  if 0 ≤ q then ⌊q⌋ else ⌈q⌉

/-! ### Generic keyed deduplication (pandas `drop_duplicates(subset, keep='first')`) -/

/-- Keep the rows whose key has not been seen yet; `seen` accumulates keys of
rows already kept. -/
def dedupKeyed {α K : Type} [DecidableEq K] (key : α → K) : List K → List α → List α
  | _, [] => []
  | seen, r :: rs =>
      if key r ∈ seen then dedupKeyed key seen rs
      else r :: dedupKeyed key (key r :: seen) rs

/-- pandas `DataFrame.drop_duplicates(subset=key, keep='first')`. -/
def dropDuplicatesBy {α K : Type} [DecidableEq K] (key : α → K) (l : List α) : List α :=
  dedupKeyed key [] l

/-! ### Cleaner data model (src/data_cleaner.py)

A row of the consolidated CSV table that `DataCleaner.clean_data_quality`
receives.  Numeric columns that pandas may hold as `NaN` are `Option ℚ`.  The
`ZIP_Code` column is carried in its string form, so that the code's
`astype(str)` is the identity on it. -/

structure Row where
  restaurantName : String
  rating : Option ℚ
  reviewCount : Option ℚ
  priceLevel : Option ℚ
  latitude : Option ℚ
  longitude : Option ℚ
  zipCode : String
  category : String
  neighborhood : String
  address : String
deriving DecidableEq

/-- pandas comparison `series == c`: `NaN` compares false. -/
def cmpEq (o : Option ℚ) (c : ℚ) : Bool :=
  match o with
  | none => false
  | some x => decide (x = c)

/-- pandas comparison `series >= c`: `NaN` compares false. -/
def cmpGe (o : Option ℚ) (c : ℚ) : Bool :=
  match o with
  | none => false
  | some x => decide (c ≤ x)

/-- pandas comparison `series <= c`: `NaN` compares false. -/
def cmpLe (o : Option ℚ) (c : ℚ) : Bool :=
  match o with
  | none => false
  | some x => decide (x ≤ c)

/-- Filter mask of `df[~((df['Latitude'] == 0) & (df['Longitude'] == 0))]`
(data_cleaner.py line 133). -/
def zeroCoordOk (r : Row) : Bool :=
  !(cmpEq r.latitude 0 && cmpEq r.longitude 0)

/-- Filter mask of the LA County bounding-box filter
(data_cleaner.py lines 137-140). -/
def inBounds (r : Row) : Bool :=
  cmpGe r.latitude 33.5 && cmpLe r.latitude 35 &&
    cmpGe r.longitude (-119.5) && cmpLe r.longitude (-117)

/-- The per-row field rewrites of lines 146-154: strip and title-case the
restaurant name and the neighborhood, zero-fill the ZIP string to width 5. -/
def cleanRow (r : Row) : Row :=
  { r with
      restaurantName := pyTitle (pyStrip r.restaurantName)
      neighborhood := pyTitle (pyStrip r.neighborhood)
      zipCode := pyZfill 5 r.zipCode }

/-- `DataCleaner.clean_data_quality` (data_cleaner.py lines 126-162): drop
(0,0) coordinates, drop rows outside the bounding box, drop duplicate
(Restaurant_Name, ZIP_Code) keys keeping the first occurrence, then normalize
name, neighborhood and ZIP strings. -/
def clean_data_quality (df : List Row) : List Row :=
  ((dropDuplicatesBy (fun r => (r.restaurantName, r.zipCode))
      ((df.filter zeroCoordOk).filter inBounds)).map cleanRow)

/-- `get_price_label` (data_cleaner.py lines 35-39): `NaN` and any value whose
integer part is outside {0,1,2,3,4} map to "Unknown". -/
def get_price_label (priceLevel : Option ℚ) : String :=
  match priceLevel with
  | none => "Unknown"
  | some q =>
      let n := pyInt q
      if n = 0 then "Free"
      else if n = 1 then "$"
      else if n = 2 then "$$"
      else if n = 3 then "$$$"
      else if n = 4 then "$$$$"
      else "Unknown"

/-- `calculate_market_saturation` (data_cleaner.py lines 92-101), as a function
of the two aggregate inputs the row carries. -/
def calculate_market_saturation (zipAvgRating restaurantsInZip : Option ℚ) : Option ℚ :=
  match zipAvgRating, restaurantsInZip with
  | some avgRating, some restaurantCount =>
      some (pyRound 3 (min (restaurantCount / 20) 1 * 0.6 + avgRating / 5 * 0.4))
  | _, _ => none

/-- `is_high_value_target` (data_cleaner.py lines 106-120), as a function of
the two aggregate inputs the row carries. -/
def is_high_value_target (zipAvgRating restaurantsInZip : Option ℚ) : String :=
  match zipAvgRating, restaurantsInZip with
  | some avgRating, some restaurantCount =>
      if avgRating ≥ 4 ∧ restaurantCount ≤ 10 then "High Value Target"
      else if avgRating ≥ 3.5 ∧ restaurantCount ≤ 15 then "Moderate Value Target"
      else if restaurantCount ≥ 30 then "Saturated Market"
      else "Standard Market"
  | _, _ => "Unknown"

/-- The market-opportunity rules exactly as the specification words them
(spec §4.2 stage 7), for comparison against `is_high_value_target`. -/
def marketOpportunitySpec (avgRating restaurantCount : ℚ) : String :=
  if avgRating ≥ 4 ∧ restaurantCount ≤ 10 then "High Value Target"
  else if avgRating ≥ 3.5 ∧ restaurantCount ≤ 15 then "Moderate Value Target"
  else if restaurantCount ≥ 30 then "Saturated Market"
  else "Standard Market"

/-! ### Collector data model (src/data_extractor.py) -/

/-- The attributes of one raw API place object that
`extract_restaurant_data` reads; a missing key is `none`. -/
structure RawPlace where
  displayName : Option String
  rating : Option ℚ
  userRatingCount : Option ℕ
  priceLevel : Option String
  latitude : Option ℚ
  longitude : Option ℚ
  formattedAddress : Option String
  primaryTypeDisplayName : Option String
  types : List String
deriving DecidableEq

/-- The flat record dict built by `extract_restaurant_data`. -/
structure Record where
  zipCode : Option String
  restaurantName : String
  rating : Option ℚ
  reviewCount : ℕ
  priceLevel : Option ℕ
  latitude : Option ℚ
  longitude : Option ℚ
  category : String
  neighborhood : String
  address : String
deriving DecidableEq

/-- The fixed enum table of data_extractor.py lines 106-112; any other string
is not a key of the dict. -/
def price_level_map (s : String) : Option ℕ :=
  if s = "PRICE_LEVEL_FREE" then some 0
  else if s = "PRICE_LEVEL_INEXPENSIVE" then some 1
  else if s = "PRICE_LEVEL_MODERATE" then some 2
  else if s = "PRICE_LEVEL_EXPENSIVE" then some 3
  else if s = "PRICE_LEVEL_VERY_EXPENSIVE" then some 4
  else none

/-- `price_level_map.get(place.get('priceLevel'), None)` (line 113): an absent
`priceLevel` key is not in the dict either, so it also yields `None`. -/
def lookupPriceLevel (raw : Option String) : Option ℕ :=
  match raw with
  | none => none
  | some s => price_level_map s

/-- Regex `\w`: letter, digit or underscore. -/
def isWordChar (c : Char) : Bool :=
  c.isAlphanum || c = '_'

/-- Regex `\b` to the right of a match: end of input or a non-word char. -/
def boundaryAfter (l : List Char) : Bool :=
  match l with
  | [] => true
  | c :: _ => !(isWordChar c)

/-- Try to match `\d{5}(?:-\d{4})?\b` at the head of `cs` (the `\b` on the left
is checked by the caller), greedy on the optional `-\d{4}` group, returning the
matched characters. -/
def matchZipHere (cs : List Char) : Option (List Char) :=
  if (cs.take 5).length = 5 ∧ (cs.take 5).all Char.isDigit then
    match cs.drop 5 with
    | [] => some (cs.take 5)
    | c :: r2 =>
        if c = '-' ∧ (r2.take 4).length = 4 ∧ (r2.take 4).all Char.isDigit
            ∧ boundaryAfter (r2.drop 4) then
          some (cs.take 5 ++ c :: r2.take 4)
        else if !(isWordChar c) then some (cs.take 5) else none
  else none

/-- `re.search(r'\b\d{5}(?:-\d{4})?\b', ·)`: scan positions left to right; the
Bool records whether the char before the current position is a word char
(which would violate the left `\b`). -/
def searchZip : Bool → List Char → Option (List Char)
  | _, [] => none
  | prevWord, c :: rest =>
      match (if prevWord then none else matchZipHere (c :: rest)) with
      | some m => some m
      | none => searchZip (isWordChar c) rest

/-- `extract_zip_code` (data_extractor.py lines 150-162): falsy address gives
`None`; otherwise the regex match truncated to its first 5 characters. -/
def extract_zip_code (address : String) : Option String :=
  if address = "" then none
  else
    match searchZip false address.data with
    | some m => some ⟨m.take 5⟩
    | none => none

/-- Python substring containment helper: is the first list a prefix of the
second. -/
def listPrefOf : List Char → List Char → Bool
  | [], _ => true
  | _ :: _, [] => false
  | a :: as, b :: bs => a == b && listPrefOf as bs

/-- Python `needle in haystack` on strings: substring containment. -/
def listSubstrOf (n : List Char) : List Char → Bool
  | [] => n.isEmpty
  | b :: bs => listPrefOf n (b :: bs) || listSubstrOf n bs

/-- Python `s.replace('_', ' ')`. -/
def replaceUnderscore (s : String) : String :=
  ⟨s.data.map (fun c => if c = '_' then ' ' else c)⟩

/-- `extract_restaurant_data` (data_extractor.py lines 95-144).  Python
truthiness: a rating or coordinate that is absent defaults to 0, and a zero
value is falsy, so it is stored as `None`. -/
def extract_restaurant_data (place : RawPlace) (neighborhood : String) : Record :=
  let name := place.displayName.getD "Unknown"
  let rating := place.rating.getD 0
  let reviewCount := place.userRatingCount.getD 0
  let priceLevel := lookupPriceLevel place.priceLevel
  let latitude := place.latitude.getD 0
  let longitude := place.longitude.getD 0
  let address := place.formattedAddress.getD ""
  let zipCode := extract_zip_code address
  let category0 := place.primaryTypeDisplayName.getD "Restaurant"
  let category :=
    if (place.types.map pyLower).contains "restaurant" then
      match place.types.filter
          (fun t => !(listSubstrOf "restaurant".data (pyLower t).data)) with
      | [] => category0
      | t0 :: _ => pyTitle (replaceUnderscore t0)
    else category0
  { zipCode := zipCode
    restaurantName := name
    rating := if rating = 0 then none else some (pyRound 1 rating)
    reviewCount := reviewCount
    priceLevel := priceLevel
    latitude := if latitude = 0 then none else some (pyRound 6 latitude)
    longitude := if longitude = 0 then none else some (pyRound 6 longitude)
    category := category
    neighborhood := neighborhood
    address := address }

/-- One configured search area (data_extractor.py lines 168-281). -/
structure AreaQuery where
  name : String
  query : String
  zipHint : String
deriving DecidableEq

/-- The per-place record assembly of `run_full_extraction`
(data_extractor.py lines 305-312): when the extracted ZIP is falsy
(`None` or empty), substitute the area's ZIP hint. -/
def assembleRecord (area : AreaQuery) (place : RawPlace) : Record :=
  match (extract_restaurant_data place area.name).zipCode with
  | none => { extract_restaurant_data place area.name with zipCode := some area.zipHint }
  | some s =>
      if s = "" then { extract_restaurant_data place area.name with zipCode := some area.zipHint }
      else extract_restaurant_data place area.name

/-- The table transformations of `save_to_csv` (data_extractor.py lines
355-369): drop duplicate (Restaurant_Name, Address) keys keeping the first,
drop placeholder names, drop rows with a missing coordinate. -/
def save_to_csv (records : List Record) : List Record :=
  ((dropDuplicatesBy (fun r => (r.restaurantName, r.address)) records).filter
      (fun r => r.restaurantName != "Unknown")).filter
    (fun r => r.latitude.isSome && r.longitude.isSome)

/-! ### Lemmas about keyed deduplication -/

theorem dedupKeyed_subset {α K : Type} [DecidableEq K] (key : α → K) :
    ∀ (seen : List K) (l : List α) (x : α), x ∈ dedupKeyed key seen l → x ∈ l := by
  intro seen l
  induction l generalizing seen with
  | nil => intro x hx; simp [dedupKeyed] at hx
  | cons a t ih =>
      intro x hx
      by_cases h : key a ∈ seen
      · simp only [dedupKeyed, if_pos h] at hx
        exact List.mem_cons_of_mem a (ih seen x hx)
      · simp only [dedupKeyed, if_neg h, List.mem_cons] at hx
        rcases hx with h1 | h2
        · exact h1 ▸ List.mem_cons_self a t
        · exact List.mem_cons_of_mem a (ih _ x h2)

theorem dedupKeyed_key_not_seen {α K : Type} [DecidableEq K] (key : α → K) :
    ∀ (seen : List K) (l : List α) (x : α), x ∈ dedupKeyed key seen l → key x ∉ seen := by
  intro seen l
  induction l generalizing seen with
  | nil => intro x hx; simp [dedupKeyed] at hx
  | cons a t ih =>
      intro x hx
      by_cases h : key a ∈ seen
      · simp only [dedupKeyed, if_pos h] at hx
        exact ih seen x hx
      · simp only [dedupKeyed, if_neg h, List.mem_cons] at hx
        rcases hx with h1 | h2
        · exact h1 ▸ h
        · intro hk
          exact ih _ x h2 (List.mem_cons_of_mem _ hk)

theorem dedupKeyed_keys_nodup {α K : Type} [DecidableEq K] (key : α → K) :
    ∀ (seen : List K) (l : List α), ((dedupKeyed key seen l).map key).Nodup := by
  intro seen l
  induction l generalizing seen with
  | nil => simp [dedupKeyed]
  | cons a t ih =>
      by_cases h : key a ∈ seen
      · simpa only [dedupKeyed, if_pos h] using ih seen
      · simp only [dedupKeyed, if_neg h, List.map_cons, List.nodup_cons]
        refine ⟨?_, ih _⟩
        intro hmem
        rcases List.mem_map.mp hmem with ⟨x, hx, hkx⟩
        exact dedupKeyed_key_not_seen key _ t x hx (hkx ▸ List.mem_cons_self _ _)

theorem dedupKeyed_eq_self {α K : Type} [DecidableEq K] (key : α → K) :
    ∀ (seen : List K) (l : List α), (l.map key).Nodup →
      (∀ x ∈ l, key x ∉ seen) → dedupKeyed key seen l = l := by
  intro seen l
  induction l generalizing seen with
  | nil => intro _ _; rfl
  | cons a t ih =>
      intro hnd hout
      have ha : key a ∉ seen := hout a (List.mem_cons_self a t)
      simp only [List.map_cons, List.nodup_cons] at hnd
      simp only [dedupKeyed, if_neg ha]
      congr 1
      refine ih _ hnd.2 ?_
      intro x hx
      simp only [List.mem_cons]
      rintro (h1 | h2)
      · exact hnd.1 (h1 ▸ List.mem_map_of_mem key hx)
      · exact hout x (List.mem_cons_of_mem a hx) h2

theorem dropDuplicatesBy_idem {α K : Type} [DecidableEq K] (key : α → K) (l : List α) :
    dropDuplicatesBy key (dropDuplicatesBy key l) = dropDuplicatesBy key l :=
  dedupKeyed_eq_self key [] _ (dedupKeyed_keys_nodup key [] l) (by simp)

theorem dedupKeyed_filter_of_seen {α K : Type} [DecidableEq K] (key : α → K)
    (k : K) : ∀ (seen : List K) (l : List α), k ∈ seen →
      (dedupKeyed key seen l).filter (fun x => decide (key x = k)) = [] := by
  intro seen l hk
  rw [List.filter_eq_nil_iff]
  intro x hx
  simp only [decide_eq_true_eq]
  intro hxk
  exact dedupKeyed_key_not_seen key seen l x hx (hxk ▸ hk)

theorem dedupKeyed_filter_first {α K : Type} [DecidableEq K] (key : α → K) (k : K) :
    ∀ (l : List α) (seen : List K) (a : α), k ∉ seen →
      l.find? (fun x => decide (key x = k)) = some a →
      (dedupKeyed key seen l).filter (fun x => decide (key x = k)) = [a] := by
  intro l
  induction l with
  | nil => intro seen a _ hfind; simp at hfind
  | cons b t ih =>
      intro seen a hk hfind
      by_cases hb : key b = k
      · have hfb : (fun x => decide (key x = k)) b = true := by simp [hb]
        rw [List.find?_cons_of_pos t hfb] at hfind
        injection hfind with hba
        subst hba
        have hbseen : key b ∉ seen := by rw [hb]; exact hk
        simp only [dedupKeyed, if_neg hbseen]
        rw [List.filter_cons, if_pos hfb,
          dedupKeyed_filter_of_seen key k (key b :: seen) t (by simp [hb])]
      · have hfb : ¬((fun x => decide (key x = k)) b = true) := by simp [hb]
        rw [List.find?_cons_of_neg t hfb] at hfind
        by_cases hbseen : key b ∈ seen
        · simp only [dedupKeyed, if_pos hbseen]
          exact ih seen a hk hfind
        · simp only [dedupKeyed, if_neg hbseen]
          rw [List.filter_cons, if_neg hfb]
          refine ih (key b :: seen) a ?_ hfind
          simp only [List.mem_cons]
          rintro (h1 | h2)
          · exact hb h1.symm
          · exact hk h2

/-! ### Lemmas about the cleaning pass -/

theorem cleanRow_rating (r : Row) : (cleanRow r).rating = r.rating := rfl

theorem cleanRow_latitude (r : Row) : (cleanRow r).latitude = r.latitude := rfl

theorem cleanRow_longitude (r : Row) : (cleanRow r).longitude = r.longitude := rfl

theorem cleanRow_zipCode (r : Row) : (cleanRow r).zipCode = pyZfill 5 r.zipCode := rfl

theorem cmpGe_true {o : Option ℚ} {c : ℚ} (h : cmpGe o c = true) :
    ∃ x, o = some x ∧ c ≤ x := by
  cases o with
  | none => simp [cmpGe] at h
  | some x => exact ⟨x, rfl, by simpa [cmpGe] using h⟩

theorem cmpLe_true {o : Option ℚ} {c : ℚ} (h : cmpLe o c = true) :
    ∃ x, o = some x ∧ x ≤ c := by
  cases o with
  | none => simp [cmpLe] at h
  | some x => exact ⟨x, rfl, by simpa [cmpLe] using h⟩

/-- Decompose membership in the output of the cleaning pass: every output row
is the normalization of an input row that passed both coordinate filters. -/
theorem mem_clean_data_quality {df : List Row} {r : Row}
    (h : r ∈ clean_data_quality df) :
    ∃ r0, r0 ∈ df ∧ zeroCoordOk r0 = true ∧ inBounds r0 = true ∧ r = cleanRow r0 := by
  unfold clean_data_quality at h
  rcases List.mem_map.mp h with ⟨r0, hr0, hmap⟩
  have h1 := dedupKeyed_subset _ [] _ _ hr0
  have h2 := List.mem_filter.mp h1
  have h3 := List.mem_filter.mp h2.1
  exact ⟨r0, h3.1, h3.2, h2.2, hmap.symm⟩

/-! ### Concrete rows used in counterexamples and witnesses -/

/-- A generic valid row: LA-county coordinates, well-formed fields. -/
def baseRow : Row :=
  { restaurantName := "Joes Pizza"
    rating := some 4
    reviewCount := some 120
    priceLevel := some 2
    latitude := some 34
    longitude := some (-118)
    zipCode := "90210"
    category := "Pizza"
    neighborhood := "Hollywood"
    address := "1 Main St" }

/-- A row whose rating is out of the [0,5] range but which is otherwise valid. -/
def rowBadRating : Row :=
  { baseRow with rating := some 7 }

/-! ### C1 -/

/-- C1, counterexample: the cleaning pass performs no rating validation, so a
row with rating 7 — outside [0,5] — survives `clean_data_quality` with its
rating intact. -/
theorem C1_counterexample :
    (clean_data_quality [rowBadRating]).map Row.rating = [some 7] ∧ ¬((7 : ℚ) ≤ 5) := by
  with_unfolding_all decide

/-- C1, amended claim: `clean_data_quality` neither modifies nor filters on the
rating column; every surviving row carries the unchanged rating of an input
row (so ratings outside [0,5] survive cleaning). -/
theorem C1_rating_passes_through (df : List Row) (r : Row)
    (h : r ∈ clean_data_quality df) :
    ∃ r0, r0 ∈ df ∧ r.rating = r0.rating := by
  rcases mem_clean_data_quality h with ⟨r0, hmem, _, _, rfl⟩
  exact ⟨r0, hmem, cleanRow_rating r0⟩

/-- Witness for `C1_rating_passes_through` at a concrete one-row table. -/
theorem C1_witness :
    ∃ r0, r0 ∈ [rowBadRating] ∧ (cleanRow rowBadRating).rating = r0.rating :=
  C1_rating_passes_through [rowBadRating] (cleanRow rowBadRating)
    (by with_unfolding_all decide)

/-! ### C9 -/

/-- C9: every row surviving `clean_data_quality` has its latitude in
[33.5, 35] and its longitude in [-119.5, -117], and in particular no surviving
row has latitude 0 and longitude 0. -/
theorem C9_coordinates_in_bounds (df : List Row) (r : Row)
    (h : r ∈ clean_data_quality df) :
    ∃ la lo, r.latitude = some la ∧ r.longitude = some lo ∧
      (33.5 : ℚ) ≤ la ∧ la ≤ 35 ∧ (-119.5 : ℚ) ≤ lo ∧ lo ≤ -117 ∧
      ¬(la = 0 ∧ lo = 0) := by
  rcases mem_clean_data_quality h with ⟨r0, _, _, hb, rfl⟩
  unfold inBounds at hb
  simp only [Bool.and_eq_true] at hb
  obtain ⟨⟨⟨hge1, hle1⟩, hge2⟩, hle2⟩ := hb
  rcases cmpGe_true hge1 with ⟨la, hla, h1⟩
  rcases cmpLe_true hle1 with ⟨la', hla', h2⟩
  rcases cmpGe_true hge2 with ⟨lo, hlo, h3⟩
  rcases cmpLe_true hle2 with ⟨lo', hlo', h4⟩
  rw [hla] at hla'
  injection hla' with hlaeq
  rw [hlo] at hlo'
  injection hlo' with hloeq
  subst hlaeq
  subst hloeq
  refine ⟨la, lo, by rw [cleanRow_latitude, hla], by rw [cleanRow_longitude, hlo],
    h1, h2, h3, h4, ?_⟩
  rintro ⟨rfl, -⟩
  norm_num at h1

/-- Witness for `C9_coordinates_in_bounds` at a concrete one-row table. -/
theorem C9_witness :
    ∃ la lo, (cleanRow baseRow).latitude = some la ∧
      (cleanRow baseRow).longitude = some lo ∧
      (33.5 : ℚ) ≤ la ∧ la ≤ 35 ∧ (-119.5 : ℚ) ≤ lo ∧ lo ≤ -117 ∧
      ¬(la = 0 ∧ lo = 0) :=
  C9_coordinates_in_bounds [baseRow] (cleanRow baseRow)
    (by with_unfolding_all decide)

/-! ### C2 -/

/-- C2: the market-opportunity label is computed by the first-match-wins rule
chain of the spec whenever both aggregates are present, is "Unknown" when
either is absent, and the (4.2, 8) row gets "High Value Target" even though it
also satisfies the "Moderate Value Target" rule. -/
theorem C2_market_opportunity_first_match :
    (∀ avgRating restaurantCount : ℚ,
        is_high_value_target (some avgRating) (some restaurantCount) =
          marketOpportunitySpec avgRating restaurantCount)
    ∧ (∀ o : Option ℚ, is_high_value_target none o = "Unknown")
    ∧ (∀ o : Option ℚ, is_high_value_target o none = "Unknown")
    ∧ is_high_value_target (some 4.2) (some 8) = "High Value Target"
    ∧ ((3.5 : ℚ) ≤ 4.2 ∧ (8 : ℚ) ≤ 15) := by
  refine ⟨fun a c => rfl, fun o => ?_, fun o => ?_, ?_, by norm_num⟩
  · cases o <;> rfl
  · cases o <;> rfl
  · with_unfolding_all decide

/-! ### C3 -/

theorem roundHalfEven_nonneg {q : ℚ} (h : 0 ≤ q) : 0 ≤ roundHalfEven q := by
  unfold roundHalfEven
  have hf : (0 : ℤ) ≤ ⌊q⌋ := Int.floor_nonneg.mpr h
  split_ifs <;> omega

theorem roundHalfEven_le {q : ℚ} {n : ℤ} (h : q ≤ (n : ℚ)) : roundHalfEven q ≤ n := by
  unfold roundHalfEven
  have hf : ⌊q⌋ ≤ n := by exact_mod_cast le_trans (Int.floor_le q) h
  have hstep : ¬(q - ⌊q⌋ < 1/2) → ⌊q⌋ + 1 ≤ n := by
    intro h1
    push_neg at h1
    have hlt : ((⌊q⌋ : ℤ) : ℚ) < q := by linarith
    have : ⌊q⌋ < n := by exact_mod_cast lt_of_lt_of_le hlt h
    omega
  split_ifs with h1 h2 h3
  · exact hf
  · exact hstep h1
  · exact hf
  · exact hstep h1

/-- Rounding to three decimals maps [0,1] into [0,1]. -/
theorem pyRound_bounds01 {q : ℚ} (h0 : 0 ≤ q) (h1 : q ≤ 1) :
    0 ≤ pyRound 3 q ∧ pyRound 3 q ≤ 1 := by
  have hq : (0 : ℚ) ≤ q * 10 ^ 3 := by positivity
  have hle : q * 10 ^ 3 ≤ ((1000 : ℤ) : ℚ) := by push_cast; nlinarith
  have hnn := roundHalfEven_nonneg hq
  have hub := roundHalfEven_le hle
  unfold pyRound
  constructor
  · apply div_nonneg
    · exact_mod_cast hnn
    · positivity
  · rw [div_le_one (by positivity)]
    calc ((roundHalfEven (q * 10 ^ 3) : ℤ) : ℚ) ≤ ((1000 : ℤ) : ℚ) := by exact_mod_cast hub
      _ = (10 : ℚ) ^ 3 := by norm_num

/-- C3: the saturation index equals the spec's formula when both aggregates
are present, is absent when either is absent, and lies in [0,1] whenever it is
defined with restaurants_in_zip ≥ 0 and zip_avg_rating ∈ [0,5]. -/
theorem C3_market_saturation :
    (∀ avgRating restaurantCount : ℚ,
        calculate_market_saturation (some avgRating) (some restaurantCount) =
          some (pyRound 3 (0.6 * min (restaurantCount / 20) 1 + 0.4 * (avgRating / 5))))
    ∧ (∀ o : Option ℚ, calculate_market_saturation none o = none)
    ∧ (∀ o : Option ℚ, calculate_market_saturation o none = none)
    ∧ (∀ avgRating restaurantCount x : ℚ, 0 ≤ restaurantCount → 0 ≤ avgRating →
        avgRating ≤ 5 →
        calculate_market_saturation (some avgRating) (some restaurantCount) = some x →
        0 ≤ x ∧ x ≤ 1) := by
  refine ⟨?_, fun o => ?_, fun o => ?_, ?_⟩
  · intro a c
    show some (pyRound 3 (min (c / 20) 1 * 0.6 + a / 5 * 0.4)) = _
    rw [show min (c / 20) 1 * 0.6 + a / 5 * 0.4
        = 0.6 * min (c / 20) 1 + 0.4 * (a / 5) from by ring]
  · cases o <;> rfl
  · cases o <;> rfl
  · intro a c x hc ha0 ha5 heq
    have hx : x = pyRound 3 (min (c / 20) 1 * 0.6 + a / 5 * 0.4) := by
      have : some (pyRound 3 (min (c / 20) 1 * 0.6 + a / 5 * 0.4)) = some x := heq
      injection this with h
      exact h.symm
    have hm0 : 0 ≤ min (c / 20) 1 := le_min (by positivity) zero_le_one
    have hm1 : min (c / 20) 1 ≤ 1 := min_le_right _ _
    have hr0 : 0 ≤ a / 5 := by positivity
    have hr1 : a / 5 ≤ 1 := by
      rw [div_le_one (by norm_num : (0:ℚ) < 5)]
      linarith
    have hs0 : 0 ≤ min (c / 20) 1 * 0.6 + a / 5 * 0.4 := by nlinarith
    have hs1 : min (c / 20) 1 * 0.6 + a / 5 * 0.4 ≤ 1 := by nlinarith
    rw [hx]
    exact pyRound_bounds01 hs0 hs1

/-- Witness for the bound conjunct of `C3_market_saturation`: at
avg = 4, count = 10 the index is 0.62, which lies in [0,1]. -/
theorem C3_witness : 0 ≤ (0.62 : ℚ) ∧ (0.62 : ℚ) ≤ 1 :=
  C3_market_saturation.2.2.2 4 10 0.62 (by norm_num) (by norm_num) (by norm_num)
    (by with_unfolding_all decide)

/-! ### C4 -/

/-- The regex `^\d{5}$`: exactly five ASCII digits. -/
def matchesFiveDigit (s : String) : Bool :=
  decide (s.data.length = 5) && s.data.all Char.isDigit

/-- A row whose ZIP string is not a digit string; otherwise valid. -/
def rowBadZip : Row :=
  { baseRow with zipCode := "hello" }

/-- A row whose ZIP string is a 3-digit string; otherwise valid. -/
def rowShortZip : Row :=
  { baseRow with zipCode := "210" }

/-- C4, counterexample: ZIP standardization only zero-fills the string form to
width 5 and drops nothing, so a row whose ZIP is "hello" survives cleaning
with zip_code "hello", which does not match `^\d{5}$`. -/
theorem C4_counterexample :
    (clean_data_quality [rowBadZip]).map Row.zipCode = ["hello"] ∧
      matchesFiveDigit "hello" = false := by
  with_unfolding_all decide

theorem replicate_zero_all_digit (n : ℕ) :
    (List.replicate n '0').all Char.isDigit = true := by
  rw [List.all_eq_true]
  intro c hc
  rw [List.eq_of_mem_replicate hc]
  decide

theorem pyZfill_digits {s : String} (hd : s.data.all Char.isDigit = true)
    (hl : s.data.length ≤ 5) : matchesFiveDigit (pyZfill 5 s) = true := by
  unfold pyZfill
  by_cases hlen : 5 ≤ s.data.length
  · rw [if_pos hlen]
    have h5 : s.data.length = 5 := le_antisymm hl hlen
    simp [matchesFiveDigit, h5, hd]
  · rw [if_neg hlen]
    rcases hdata : s.data with _ | ⟨c, rest⟩
    · decide
    · have hcd : c.isDigit = true := by
        rw [hdata] at hd
        simp only [List.all_cons, Bool.and_eq_true] at hd
        exact hd.1
      have hnotsign : ¬(c = '+' ∨ c = '-') := by
        rintro (rfl | rfl) <;> simp at hcd
      dsimp only
      rw [if_neg hnotsign]
      simp only [matchesFiveDigit, Bool.and_eq_true, decide_eq_true_eq]
      constructor
      · simp only [List.length_append, List.length_replicate, List.length_cons]
        have hls : s.data.length = rest.length + 1 := by rw [hdata]; rfl
        simp only [List.length_cons] at hlen
        omega
      · rw [List.all_append, Bool.and_eq_true]
        exact ⟨replicate_zero_all_digit _, by rw [← hdata]; exact hd⟩

/-- C4, amended claim: cleaning replaces each surviving row's ZIP with the
zero-filled (width 5) form of its string value and never drops a row on
account of its ZIP; the result matches `^\d{5}$` exactly when the input ZIP
string was at most five digits, and otherwise survives unchanged even when it
matches no digit pattern. -/
theorem C4_zip_zfill_only (df : List Row) (r : Row)
    (h : r ∈ clean_data_quality df) :
    ∃ r0, r0 ∈ df ∧ r.zipCode = pyZfill 5 r0.zipCode ∧
      (r0.zipCode.data.all Char.isDigit = true → r0.zipCode.data.length ≤ 5 →
        matchesFiveDigit r.zipCode = true) := by
  rcases mem_clean_data_quality h with ⟨r0, hmem, _, _, rfl⟩
  refine ⟨r0, hmem, cleanRow_zipCode r0, fun hd hl => ?_⟩
  rw [cleanRow_zipCode]
  exact pyZfill_digits hd hl

/-- Witness for `C4_zip_zfill_only` at a one-row table with ZIP "210". -/
theorem C4_witness :
    ∃ r0, r0 ∈ [rowShortZip] ∧ (cleanRow rowShortZip).zipCode = pyZfill 5 r0.zipCode ∧
      (r0.zipCode.data.all Char.isDigit = true → r0.zipCode.data.length ≤ 5 →
        matchesFiveDigit (cleanRow rowShortZip).zipCode = true) :=
  C4_zip_zfill_only [rowShortZip] (cleanRow rowShortZip)
    (by with_unfolding_all decide)

/-! ### C5 -/

/-- The first of two collector records agreeing on name and address. -/
def recJoeFirst : Record :=
  { zipCode := some "90210"
    restaurantName := "Joes Pizza"
    rating := some 4
    reviewCount := 120
    priceLevel := some 2
    latitude := some 34
    longitude := some (-118)
    category := "Pizza"
    neighborhood := "Beverly Hills"
    address := "1 Main St" }

/-- Same dedup key as `recJoeFirst`, but rating 4.2. -/
def recJoeSecond : Record :=
  { recJoeFirst with rating := some 4.2 }

/-- Same cleaner dedup key as `baseRow`, but rating 4.2. -/
def rowJoeSecond : Row :=
  { baseRow with rating := some 4.2 }

/-- C5: both deduplications keep exactly the first occurrence per key — for
any input list, the deduplicated output restricted to a key equals the
singleton of the key's first occurrence (Collector key: name and address;
Cleaner key: name and ZIP) — and on the two "Joes Pizza" records with ratings
4 and 4.2 the first (rating 4) is the one kept. -/
theorem C5_dedup_keeps_first :
    (∀ (l : List Record) (k : String × String) (a : Record),
        l.find? (fun r => decide ((r.restaurantName, r.address) = k)) = some a →
        (dropDuplicatesBy (fun r => (r.restaurantName, r.address)) l).filter
            (fun r => decide ((r.restaurantName, r.address) = k)) = [a])
    ∧ (∀ (l : List Row) (k : String × String) (a : Row),
        l.find? (fun r => decide ((r.restaurantName, r.zipCode) = k)) = some a →
        (dropDuplicatesBy (fun r => (r.restaurantName, r.zipCode)) l).filter
            (fun r => decide ((r.restaurantName, r.zipCode) = k)) = [a])
    ∧ save_to_csv [recJoeFirst, recJoeSecond] = [recJoeFirst]
    ∧ clean_data_quality [baseRow, rowJoeSecond] = [baseRow] := by
  refine ⟨?_, ?_, ?_, ?_⟩
  · intro l k a h
    exact dedupKeyed_filter_first _ k l [] a (List.not_mem_nil k) h
  · intro l k a h
    exact dedupKeyed_filter_first _ k l [] a (List.not_mem_nil k) h
  · with_unfolding_all decide
  · with_unfolding_all decide

/-- Witness for `C5_dedup_keeps_first` on the concrete two-record list. -/
theorem C5_witness :
    (dropDuplicatesBy (fun r => (r.restaurantName, r.address))
        [recJoeFirst, recJoeSecond]).filter
      (fun r => decide ((r.restaurantName, r.address) = ("Joes Pizza", "1 Main St")))
      = [recJoeFirst] :=
  C5_dedup_keeps_first.1 [recJoeFirst, recJoeSecond] ("Joes Pizza", "1 Main St")
    recJoeFirst (by with_unfolding_all decide)

/-! ### C6 -/

/-- Same data as `rowShortZip` but with the ZIP already zero-filled and a
different rating: its pre-cleaning dedup key differs from `rowShortZip`,
while its post-cleaning key coincides. -/
def rowPaddedZip : Row :=
  { baseRow with zipCode := "00210", rating := some 4.2 }

/-- C6, counterexample: `clean_data_quality` deduplicates before normalizing
ZIP strings, so cleaning [("Joes Pizza","210"), ("Joes Pizza","00210")] keeps
both rows (keys differ) and rewrites both ZIPs to "00210"; a second cleaning
pass then drops one row — the pass is not idempotent. -/
theorem C6_counterexample :
    (clean_data_quality [rowShortZip, rowPaddedZip]).length = 2 ∧
      (clean_data_quality (clean_data_quality [rowShortZip, rowPaddedZip])).length = 1 := by
  with_unfolding_all decide

/-- C6, amended claim: `clean_data_quality` is idempotent on every table whose
name, neighborhood and ZIP fields are already in normalized form (i.e. each
row is a fixed point of the per-row normalization); in general a second pass
can drop rows whose keys collide only after normalization. -/
theorem C6_idempotent_on_normalized (df : List Row)
    (h : ∀ r ∈ df, cleanRow r = r) :
    clean_data_quality (clean_data_quality df) = clean_data_quality df := by
  have hsub1 : ∀ r ∈ (df.filter zeroCoordOk).filter inBounds, r ∈ df := by
    intro r hr
    exact (List.mem_filter.mp ((List.mem_filter.mp hr).1)).1
  have hD : ∀ r ∈ dropDuplicatesBy (fun r => (r.restaurantName, r.zipCode))
      ((df.filter zeroCoordOk).filter inBounds),
      r ∈ (df.filter zeroCoordOk).filter inBounds :=
    fun r hr => dedupKeyed_subset _ [] _ r hr
  have hmapid : (dropDuplicatesBy (fun r => (r.restaurantName, r.zipCode))
      ((df.filter zeroCoordOk).filter inBounds)).map cleanRow
      = dropDuplicatesBy (fun r => (r.restaurantName, r.zipCode))
        ((df.filter zeroCoordOk).filter inBounds) := by
    have := List.map_congr_left
      (fun a ha => h a (hsub1 a (hD a ha)) :
        ∀ a ∈ dropDuplicatesBy (fun r => (r.restaurantName, r.zipCode))
          ((df.filter zeroCoordOk).filter inBounds), cleanRow a = id a)
    rw [this]
    exact List.map_id' _
  have hclean : clean_data_quality df
      = dropDuplicatesBy (fun r => (r.restaurantName, r.zipCode))
        ((df.filter zeroCoordOk).filter inBounds) := by
    unfold clean_data_quality
    exact hmapid
  rw [hclean]
  have hmem : ∀ r ∈ dropDuplicatesBy (fun r => (r.restaurantName, r.zipCode))
      ((df.filter zeroCoordOk).filter inBounds),
      zeroCoordOk r = true ∧ inBounds r = true := by
    intro r hr
    have h2 := List.mem_filter.mp (hD r hr)
    have h3 := List.mem_filter.mp h2.1
    exact ⟨h3.2, h2.2⟩
  unfold clean_data_quality
  rw [List.filter_eq_self.mpr (fun a ha => (hmem a ha).1),
    List.filter_eq_self.mpr (fun a ha => (hmem a ha).2),
    dropDuplicatesBy_idem]
  exact hmapid

/-- Witness for `C6_idempotent_on_normalized` on a normalized one-row table. -/
theorem C6_witness :
    clean_data_quality (clean_data_quality [baseRow]) = clean_data_quality [baseRow] :=
  C6_idempotent_on_normalized [baseRow] (by with_unfolding_all decide)

/-! ### C7 -/

/-- C7: the price-level table maps exactly the five enum strings to 0..4,
every other string and an absent value map to absent (never 0), and the
"PRICE_LEVEL_EXPENSIVE" → 3 → "$$$" chain holds. -/
theorem C7_price_level_mapping :
    (price_level_map "PRICE_LEVEL_FREE" = some 0
      ∧ price_level_map "PRICE_LEVEL_INEXPENSIVE" = some 1
      ∧ price_level_map "PRICE_LEVEL_MODERATE" = some 2
      ∧ price_level_map "PRICE_LEVEL_EXPENSIVE" = some 3
      ∧ price_level_map "PRICE_LEVEL_VERY_EXPENSIVE" = some 4)
    ∧ (∀ s : String, s ≠ "PRICE_LEVEL_FREE" → s ≠ "PRICE_LEVEL_INEXPENSIVE" →
        s ≠ "PRICE_LEVEL_MODERATE" → s ≠ "PRICE_LEVEL_EXPENSIVE" →
        s ≠ "PRICE_LEVEL_VERY_EXPENSIVE" → price_level_map s = none)
    ∧ lookupPriceLevel none = none
    ∧ lookupPriceLevel (some "PRICE_LEVEL_EXPENSIVE") = some 3
    ∧ get_price_label (some 3) = "$$$" := by
  refine ⟨by decide, ?_, rfl, by decide, ?_⟩
  · intro s h1 h2 h3 h4 h5
    unfold price_level_map
    rw [if_neg h1, if_neg h2, if_neg h3, if_neg h4, if_neg h5]
  · with_unfolding_all decide

/-- Witness for the unrecognized-value conjunct of `C7_price_level_mapping`. -/
theorem C7_witness : price_level_map "BOGUS" = none :=
  C7_price_level_mapping.2.1 "BOGUS" (by decide) (by decide) (by decide)
    (by decide) (by decide)

/-! ### C8 -/

theorem matchZipHere_take5 {cs m : List Char} (h : matchZipHere cs = some m) :
    m.take 5 = cs.take 5 ∧ (cs.take 5).length = 5 ∧
      (cs.take 5).all Char.isDigit = true := by
  unfold matchZipHere at h
  by_cases hcond : (cs.take 5).length = 5 ∧ (cs.take 5).all Char.isDigit
  · rw [if_pos hcond] at h
    refine ⟨?_, hcond.1, hcond.2⟩
    rcases hdrop : cs.drop 5 with _ | ⟨c, r2⟩
    · rw [hdrop] at h
      injection h with hm
      rw [← hm, List.take_take]
      norm_num
    · rw [hdrop] at h
      dsimp only at h
      split_ifs at h with h9 hb
      · injection h with hm
        rw [← hm, List.take_append_eq_append_take]
        rw [hcond.1, List.take_take]
        simp
      · injection h with hm
        rw [← hm, List.take_take]
        norm_num
  · rw [if_neg hcond] at h
    exact absurd h (by simp)

theorem searchZip_digits :
    ∀ (cs : List Char) (b : Bool) (m : List Char), searchZip b cs = some m →
      (m.take 5).length = 5 ∧ (m.take 5).all Char.isDigit = true := by
  intro cs
  induction cs with
  | nil => intro b m h; simp [searchZip] at h
  | cons c rest ih =>
      intro b m h
      unfold searchZip at h
      cases b with
      | true =>
          rw [if_pos rfl] at h
          exact ih _ m h
      | false =>
          rw [if_neg (by simp)] at h
          rcases hm : matchZipHere (c :: rest) with _ | m'
          · rw [hm] at h
            exact ih _ m h
          · rw [hm] at h
            injection h with hm'
            rcases matchZipHere_take5 hm with ⟨he, hl, hd⟩
            rw [← hm', he]
            exact ⟨hl, hd⟩

/-- The Beverly Hills search area as configured (data_extractor.py line 170). -/
def areaBeverly : AreaQuery :=
  { name := "Beverly Hills"
    query := "restaurants in Beverly Hills, CA"
    zipHint := "90210" }

/-- A raw place whose formatted address contains no ZIP pattern. -/
def placeNoZip : RawPlace :=
  { displayName := some "Joes Pizza"
    rating := some 4.5
    userRatingCount := some 100
    priceLevel := some "PRICE_LEVEL_EXPENSIVE"
    latitude := some 34.07
    longitude := some (-118.4)
    formattedAddress := some "1 Main St, Beverly Hills, CA"
    primaryTypeDisplayName := some "Pizza Restaurant"
    types := ["pizza_restaurant", "restaurant"] }

/-- C8: every extracted ZIP is a 5-digit string (the 5-or-9-digit match is
truncated to its first five digits, as the concrete 9-digit address shows),
and when extraction finds nothing the caller substitutes the area's ZIP hint,
so the no-ZIP Beverly Hills record ends with zip_code "90210". -/
theorem C8_zip_extraction :
    (∀ address z : String, extract_zip_code address = some z →
        z.data.length = 5 ∧ z.data.all Char.isDigit = true)
    ∧ extract_zip_code "1234 Main St, Beverly Hills, CA 90210-1234, USA" = some "90210"
    ∧ (∀ (area : AreaQuery) (place : RawPlace),
        (extract_restaurant_data place area.name).zipCode = none →
        (assembleRecord area place).zipCode = some area.zipHint)
    ∧ (assembleRecord areaBeverly placeNoZip).zipCode = some "90210" := by
  refine ⟨?_, ?_, ?_, ?_⟩
  · intro address z h
    unfold extract_zip_code at h
    by_cases he : address = ""
    · rw [if_pos he] at h
      exact absurd h (by simp)
    · rw [if_neg he] at h
      rcases hs : searchZip false address.data with _ | m
      · rw [hs] at h
        exact absurd h (by simp)
      · rw [hs] at h
        injection h with hz
        rw [← hz]
        exact searchZip_digits address.data false m hs
  · with_unfolding_all decide
  · intro area place h
    unfold assembleRecord
    rw [h]
  · with_unfolding_all decide

/-- Witness for the hypothesis-bearing conjuncts of `C8_zip_extraction` at
concrete inputs. -/
theorem C8_witness :
    ("90210".data.length = 5 ∧ "90210".data.all Char.isDigit = true)
    ∧ (assembleRecord areaBeverly placeNoZip).zipCode = some areaBeverly.zipHint :=
  ⟨C8_zip_extraction.1 "1234 Main St, Beverly Hills, CA 90210-1234, USA" "90210"
      (by with_unfolding_all decide),
   C8_zip_extraction.2.2.1 areaBeverly placeNoZip (by with_unfolding_all decide)⟩

/-! ### C10 -/

/-- A raw place with rating exactly 0 and latitude exactly 0. -/
def placeZeroLat : RawPlace :=
  { displayName := some "Cafe Uno"
    rating := some 0
    userRatingCount := some 5
    priceLevel := some "PRICE_LEVEL_MODERATE"
    latitude := some 0
    longitude := some (-118.3)
    formattedAddress := some "1 Main St, Los Angeles, CA 90015"
    primaryTypeDisplayName := some "Cafe"
    types := ["restaurant", "cafe"] }

/-- A record missing only its latitude. -/
def recNoLat : Record :=
  { recJoeFirst with latitude := none }

/-- C10: truthiness checks in extraction turn a zero (or absent) rating into
`None` and a zero (or absent) coordinate into `None`; the missing-coordinate
filter of save_to_csv keeps only records with both coordinates present, so a
record with either coordinate `None` never appears in its output. -/
theorem C10_zero_truthiness :
    (∀ (place : RawPlace) (nb : String),
        place.rating = some 0 ∨ place.rating = none →
        (extract_restaurant_data place nb).rating = none)
    ∧ (∀ (place : RawPlace) (nb : String),
        place.latitude = some 0 ∨ place.latitude = none →
        (extract_restaurant_data place nb).latitude = none)
    ∧ (∀ (place : RawPlace) (nb : String),
        place.longitude = some 0 ∨ place.longitude = none →
        (extract_restaurant_data place nb).longitude = none)
    ∧ (∀ (l : List Record) (r : Record), r ∈ save_to_csv l →
        r.latitude ≠ none ∧ r.longitude ≠ none)
    ∧ (∀ (l : List Record) (r : Record), r.latitude = none ∨ r.longitude = none →
        r ∉ save_to_csv l) := by
  have hmem : ∀ (l : List Record) (r : Record), r ∈ save_to_csv l →
      r.latitude ≠ none ∧ r.longitude ≠ none := by
    intro l r h
    unfold save_to_csv at h
    have h2 := (List.mem_filter.mp h).2
    simp only [Bool.and_eq_true, Option.isSome_iff_ne_none] at h2
    exact h2
  refine ⟨?_, ?_, ?_, hmem, ?_⟩
  · intro p nb h
    rcases h with h | h <;> simp [extract_restaurant_data, h]
  · intro p nb h
    rcases h with h | h <;> simp [extract_restaurant_data, h]
  · intro p nb h
    rcases h with h | h <;> simp [extract_restaurant_data, h]
  · intro l r h hin
    rcases h with h | h
    · exact (hmem l r hin).1 h
    · exact (hmem l r hin).2 h

/-- Witness for `C10_zero_truthiness` at concrete inputs. -/
theorem C10_witness :
    (extract_restaurant_data placeZeroLat "Downtown LA").rating = none
    ∧ (extract_restaurant_data placeZeroLat "Downtown LA").latitude = none
    ∧ (recJoeFirst.latitude ≠ none ∧ recJoeFirst.longitude ≠ none)
    ∧ recNoLat ∉ save_to_csv [recNoLat] :=
  ⟨C10_zero_truthiness.1 placeZeroLat "Downtown LA" (Or.inl rfl),
   C10_zero_truthiness.2.1 placeZeroLat "Downtown LA" (Or.inl rfl),
   C10_zero_truthiness.2.2.2.1 [recJoeFirst] recJoeFirst (by with_unfolding_all decide),
   C10_zero_truthiness.2.2.2.2 [recNoLat] recNoLat (Or.inl rfl)⟩

end LARest
